import Mathlib

/-!
Verification of the DatasetManager core (temporary dataset cache with
query capabilities) against its natural-language specification.

The TypeScript source is shallowly embedded:
* JS runtime values are modelled by `JsVal` (undefined, null, booleans,
  numbers, strings, arrays, plain objects).  JS numbers are modelled by
  `Int`: every value the claims exercise is integral, and no claim
  depends on fractional or NaN arithmetic.
* Property access `base[key]` throws a TypeError in JS when `base` is
  null or undefined.  `jsGetE` models that fallibly; `jsGet` is the
  total variant used on paths where the base was already established to
  be non-nullish (see the comment on `jsGet`).
* Thrown exceptions are modelled with `Except String`; the error
  strings are labels, not a character-exact reproduction of the JS
  messages.
-/

/-- A JavaScript runtime value, as stored in and queried from datasets. -/
inductive JsVal where
  | vUndefined : JsVal
  | vNull : JsVal
  | vBool : Bool → JsVal
  | vNum : Int → JsVal
  | vStr : String → JsVal
  | vArr : List JsVal → JsVal
  | vObj : List (String × JsVal) → JsVal

/-- JS truthiness (`Boolean(v)`): undefined, null, false, 0 and the empty
string are falsy, everything else (objects and arrays included) truthy. -/
def truthy : JsVal → Bool
  | .vUndefined => false
  | .vNull => false
  | .vBool b => b
  | .vNum n => n != 0
  | .vStr s => s != ""
  | .vArr _ => true
  | .vObj _ => true

/-- JS `a || b`: the first operand when truthy, else the second. -/
def jsOr (a b : JsVal) : JsVal := if truthy a then a else b

/-- Whether `v` is null or undefined (the values on which property access throws). -/
def isNullish : JsVal → Bool
  | .vUndefined => true
  | .vNull => true
  | _ => false

/-- Total model of property access `base[key]`.  Objects yield the bound
value (or undefined when the key is absent); primitives are boxed by JS
and yield undefined for the field names this program reads.  In real JS,
access on null/undefined throws; the code paths that use `jsGet` either
sit behind an explicit guard or operate on dataset items, which can never
be nullish in a snapshot: `store` reads a date field of every item while
building the summary and fails first (see `jsGetE` and `storeOp`).
Theorems about `query`/`getById` carry a no-nullish-items hypothesis so
they do not overclaim on states unreachable through `store`. -/
def jsGet (v : JsVal) (k : String) : JsVal :=
  match v with
  | .vObj fields =>
    match fields.lookup k with
    | some x => x
    | none => .vUndefined
  | _ => .vUndefined

/-- Fallible property access: JS throws a TypeError when reading a
property of null or undefined. -/
def jsGetE (v : JsVal) (k : String) : Except String JsVal :=
  match v with
  | .vNull => .error "TypeError: cannot read properties of null"
  | .vUndefined => .error "TypeError: cannot read properties of undefined"
  | _ => .ok (jsGet v k)

/-- JS strict equality `===` restricted to the shapes this program
compares.  Primitives compare structurally; objects and arrays compare
by reference in JS, and the comparisons the code performs never compare
an object with itself by reference, so object/array comparisons are
modelled as false. -/
def jsStrictEq (a b : JsVal) : Bool :=
  match a, b with
  | .vUndefined, .vUndefined => true
  | .vNull, .vNull => true
  | .vBool x, .vBool y => x == y
  | .vNum x, .vNum y => x == y
  | .vStr x, .vStr y => x == y
  | _, _ => false

/-- JS `ToNumber` coercion, on the fragment of values the claims reach;
`none` stands for NaN.  Strings are parsed as optionally-signed decimal
integers (the program only ever meets integral ids and timestamps);
`[]` coerces to 0; other arrays and all plain objects are modelled as
NaN (JS would stringify them first — no claim depends on those corners). -/
def jsToNumber : JsVal → Option Int
  | .vNum n => some n
  | .vNull => some 0
  | .vUndefined => none
  | .vBool b => some (if b then 1 else 0)
  | .vStr s => if s = "" then some 0 else s.toInt?
  | .vArr [] => some 0
  | .vArr _ => none
  | .vObj _ => none

/-- JS `a < b`: strings compare lexicographically, otherwise both sides
are coerced to numbers and any NaN makes the comparison false. -/
def jsLt (a b : JsVal) : Bool :=
  match a, b with
  | .vStr s, .vStr t => decide (s < t)
  | _, _ =>
    match jsToNumber a, jsToNumber b with
    | some x, some y => decide (x < y)
    | _, _ => false

/-- JS `String(v)` on the fragment the program stringifies (summary
tallies): primitives render as in JS; arrays would render as the
comma-join of their elements and objects as "[object Object]" — the
array join is modelled elementwise only one level deep, which is exact
for the flat records the summaries see. -/
def jsToString : JsVal → String
  | .vUndefined => "undefined"
  | .vNull => "null"
  | .vBool b => if b then "true" else "false"
  | .vNum n => toString n
  | .vStr s => s
  | .vObj _ => "[object Object]"
  | .vArr elems =>
    String.intercalate ","
      (elems.map fun e =>
        match e with
        | .vNum n => toString n
        | .vStr s => s
        | .vBool b => if b then "true" else "false"
        | .vNull => ""
        | .vUndefined => ""
        | .vObj _ => "[object Object]"
        | .vArr _ => "")

/-- Substring containment, `hay.includes(needle)`. -/
def strContains (hay needle : String) : Bool :=
  decide (needle.data <:+: hay.data)

/-! ## Data model (DatasetMetadata, DatasetSummary, stored snapshots) -/

/-- The closed set of dataset kinds (`DatasetMetadata['type']`). -/
inductive DatasetType where
  | messages
  | serverLogs
  | connectionLogs
  | events
  | channels
  | generic
deriving DecidableEq

/-- The `DatasetSummary`: the aggregate computed once at store time.  Date
strings and tallies keep first-seen order, matching JS object-key
insertion order. -/
structure DatasetSummary where
  totalCount : Nat
  dateRange : Option (String × String)
  statusCounts : Option (List (String × Nat))
  errorCount : Option Nat
  levelCounts : Option (List (String × Nat))
  outcomeCounts : Option (List (String × Nat))
  preview : Option (List JsVal)

/-- The `DatasetMetadata` record.  Timestamps are epoch milliseconds (`Date` values
compare and add by their numeric time). -/
structure DatasetMetadata where
  id : String
  type : DatasetType
  channelId : Option String
  channelName : Option String
  createdAt : Int
  expiresAt : Int
  totalCount : Nat
  pageSize : Int
  totalPages : Int
  summary : DatasetSummary

/-- A `StoredDataset`: metadata plus the sorted items and the pre-extracted
ids (typed `number[]` in the source but populated with whatever the
identity chain resolves to, hence `List JsVal`). -/
structure StoredDataset where
  metadata : DatasetMetadata
  data : List JsVal
  sortedIds : List JsVal

/-- The manager's `datasets` map, as an insertion-ordered association
list (JS `Map` iterates in insertion order; `set` on an existing key
keeps its position). -/
abbrev MState := List (String × StoredDataset)

def DEFAULT_TTL_MS : Int := 30 * 60 * 1000
def DEFAULT_PAGE_SIZE : Int := 50
def MAX_PAGE_SIZE : Int := 100

/-- Model of `this.datasets.get(id)`. -/
def getDs (st : MState) (id : String) : Option StoredDataset :=
  List.lookup id st

/-- Model of `this.datasets.set(id, d)`. -/
def setDs (st : MState) (id : String) (d : StoredDataset) : MState :=
  if (List.any st fun p => p.1 == id) then
    List.map (fun p => if p.1 == id then (id, d) else p) st
  else
    st ++ [(id, d)]

/-- Model of `this.datasets.delete(id)` (the resulting map). -/
def delDs (st : MState) (id : String) : MState :=
  List.filter (fun p => p.1 != id) st

/-! ## Identity resolution and ingestion normalization -/

/-- The identity fallback chain
`(item[idField] as number) || (item['messageId'] as number) || 0`. -/
def resolveIdWith (idField : String) (item : JsVal) : JsVal :=
  jsOr (jsGet item idField) (jsOr (jsGet item "messageId") (.vNum 0))

/-- The fixed identity chain `(item['id'] as number) || (item['messageId']
as number) || 0` used by `query`'s ids filter and by `getById` (these two
do not consult the store-time `idField`). -/
def resolveIdDefault (item : JsVal) : JsVal :=
  resolveIdWith "id" item

/-- Scan of the wrapper's container fields: the first array-typed value
wins, else the first (truthy) object-typed value is wrapped in a
singleton array; null values have `typeof === 'object'` but fail the
truthiness guard. -/
def scanListFields : List JsVal → Option (List JsVal)
  | [] => none
  | v :: rest =>
    match v with
    | .vArr elems => some elems
    | .vObj fields => some [.vObj fields]
    | _ => scanListFields rest

/-- Model of `flattenApiResponse`: unwrap `[{list: {something: [...]}}]` shapes
into the inner flat sequence, otherwise return the input unchanged.
When the first element is an array, `'list' in first` only tests index
keys and is false; when the `list` value is itself an array, `Object.keys`
enumerates its index keys, so its elements are scanned. -/
def flattenApiResponse (data : List JsVal) : List JsVal :=
  match data with
  | [] => []
  | first :: _ =>
    match first with
    | .vObj fields =>
      match fields.lookup "list" with
      | some listVal =>
        match listVal with
        | .vObj lfields =>
          match scanListFields (lfields.map Prod.snd) with
          | some flat => flat
          | none => data
        | .vArr elems =>
          match scanListFields elems with
          | some flat => flat
          | none => data
        | _ => data
      | none => data
    | _ => data

/-! ## Stable sorting (Array.prototype.sort)

`Array.prototype.sort` is stable (ES2019); for a consistent comparator
the stable result is unique, so it is modelled by a stable insertion
sort.  A comparator returning NaN is treated as returning +0 by the ES
abstract operation SortCompare. -/

/-- Insert `x` (which precedes every element of the list in input order)
before the first element it need not follow: stable insertion. -/
def insertLe (le : α → α → Bool) (x : α) : List α → List α
  | [] => [x]
  | y :: ys => if le x y then x :: y :: ys else y :: insertLe le x ys

/-- Stable sort by repeated insertion (`le x y` = comparator(x,y) ≤ 0). -/
def jsSort (le : α → α → Bool) (l : List α) : List α :=
  l.foldr (insertLe le) []

/-- Whether `comparator(a, b) = bId - aId` is at most 0, for the store-time
identity-descending sort; a NaN difference (non-numeric resolved id) is
treated as 0, i.e. a tie. -/
def storeCmpLe (idField : String) (a b : JsVal) : Bool :=
  match jsToNumber (resolveIdWith idField a), jsToNumber (resolveIdWith idField b) with
  | some x, some y => decide (y - x ≤ 0)
  | _, _ => true

/-! ## Summary generation -/

/-- Monadic helpers used to thread possible TypeErrors through the
elementwise passes of summary generation. -/
def listMapE (f : α → Except ε β) : List α → Except ε (List β)
  | [] => .ok []
  | x :: xs => do
    let y ← f x
    let ys ← listMapE f xs
    .ok (y :: ys)

def listAnyE (p : α → Except ε Bool) : List α → Except ε Bool
  | [] => .ok false
  | x :: xs => do
    let b ← p x
    if b then .ok true else listAnyE p xs

def listCountE (p : α → Except ε Bool) : List α → Except ε Nat
  | [] => .ok 0
  | x :: xs => do
    let b ← p x
    let n ← listCountE p xs
    .ok (if b then n + 1 else n)

/-- Model of `truncate(str, maxLength)`.  The argument is typed `string` but the
runtime value is whatever the record carried: a falsy value yields `''`;
a truthy value is asked for `.length` and, when too long, `.substring` —
which only strings have, so any other truthy value (a number, `true`, an
object or array that got past the length test is impossible since they
are checked here) makes the call throw.  Arrays and objects have or may
have a numeric `length` and are then returned unchanged. -/
def truncate (str : JsVal) (maxLength : Nat) : Except String JsVal :=
  if truthy str then
    match str with
    | .vStr s =>
      .ok (.vStr (if s.length ≤ maxLength then s else s.take (maxLength - 3) ++ "..."))
    | .vArr elems =>
      if elems.length ≤ maxLength then .ok (.vArr elems)
      else .error "TypeError: substring is not a function"
    | .vObj fields =>
      match jsGet (.vObj fields) "length" with
      | .vNum n =>
        if n ≤ (maxLength : Int) then .ok (.vObj fields)
        else .error "TypeError: substring is not a function"
      | _ => .error "TypeError: substring is not a function"
    | _ => .error "TypeError: substring is not a function"
  else
    .ok (.vStr "")

/-- Model of `extractMessageStatus(message)`: the first connector status, or the
nested `entry.connectorMessage.status`, else `'UNKNOWN'`.  The optional
chaining `?.['entry']` never throws; the unguarded `connectors[0]['status']`
does when the first connector is nullish. -/
def extractMessageStatus (message : JsVal) : Except String JsVal := do
  let connectors ← jsGetE message "connectorMessages"
  match connectors with
  | .vArr (c :: _) => do
    let s ← jsGetE c "status"
    .ok (jsOr s (.vStr "UNKNOWN"))
  | _ =>
    let entry := jsGet connectors "entry"
    if truthy entry then
      let cm := jsGet entry "connectorMessage"
      if truthy cm then
        .ok (jsOr (jsGet cm "status") (.vStr "UNKNOWN"))
      else
        .ok (.vStr "UNKNOWN")
    else
      .ok (.vStr "UNKNOWN")

/-- Model of `compactItem(type, item)`: the kind-specific preview projection. -/
def compactItem (ty : DatasetType) (item : JsVal) : Except String JsVal := do
  match ty with
  | .messages => do
    let messageId ← jsGetE item "messageId"
    let status ← extractMessageStatus item
    .ok (.vObj [("messageId", messageId),
                ("receivedDate", jsGet item "receivedDate"),
                ("processed", jsGet item "processed"),
                ("status", status)])
  | .serverLogs => do
    let id ← jsGetE item "id"
    let logMessage ← truncate (jsGet item "logMessage") 100
    .ok (.vObj [("id", id),
                ("level", jsGet item "level"),
                ("dateCreated", jsGet item "dateCreated"),
                ("logMessage", logMessage)])
  | .connectionLogs => do
    let id ← jsGetE item "id"
    let information ← truncate (jsGet item "information") 100
    .ok (.vObj [("id", id),
                ("channelName", jsGet item "channelName"),
                ("eventState", jsGet item "eventState"),
                ("dateCreated", jsGet item "dateCreated"),
                ("information", information)])
  | .events => do
    let id ← jsGetE item "id"
    .ok (.vObj [("id", id),
                ("level", jsGet item "level"),
                ("name", jsGet item "name"),
                ("outcome", jsGet item "outcome"),
                ("dateTime", jsGet item "dateTime")])
  | _ =>
    match item with
    | .vObj fields => .ok (.vObj (fields.take 5))
    | .vNull => .error "TypeError: Object.keys called on null"
    | .vUndefined => .error "TypeError: Object.keys called on undefined"
    | _ => .ok (.vObj [])

/-- Tally increment preserving first-seen key order. -/
def bumpCount : List (String × Nat) → String → List (String × Nat)
  | [], k => [(k, 1)]
  | (k', n) :: rest, k =>
    if k' == k then (k', n + 1) :: rest else (k', n) :: bumpCount rest k

/-- Model of `countByField(data, field)`: the tally of `String(item[field] || 'UNKNOWN')`. -/
def countByField (data : List JsVal) (field : String) : Except String (List (String × Nat)) :=
  match data with
  | [] => .ok []
  | item :: rest => do
    let v ← jsGetE item field
    let counts ← countByField rest field
    .ok (bumpCount counts (jsToString (jsOr v (.vStr "UNKNOWN"))))

/-- One message's contribution to `summary.errorCount`. -/
def isErrorMessage (m : JsVal) : Except String Bool := do
  let connectors ← jsGetE m "connectorMessages"
  match connectors with
  | .vArr cs =>
    listAnyE (fun c => do
      let s ← jsGetE c "status"
      .ok (jsStrictEq s (.vStr "ERROR"))) cs
  | _ => .ok (jsStrictEq (jsGet m "status") (.vStr "ERROR"))

/-- Model of `item['receivedDate'] || item['dateTime'] || item['dateCreated']`. -/
def pickDate (item : JsVal) : Except String JsVal := do
  let a ← jsGetE item "receivedDate"
  if truthy a then .ok a
  else
    let b := jsGet item "dateTime"
    if truthy b then .ok b else .ok (jsGet item "dateCreated")

/-- One date candidate parsed to epoch milliseconds; `none` is excluded
from the range.  Numbers pass through; an object with a numeric `time`
field yields it; strings go through `new Date(...)`, modelled for
integer-epoch strings (calendar-format parsing is not modelled — the
value would only feed `summary.dateRange`, which no claim examines);
everything else is an invalid date (NaN) and is excluded. -/
def parseDateVal (d : JsVal) : Option Int :=
  match d with
  | .vNum n => some n
  | .vObj fields =>
    match fields.lookup "time" with
    | some (.vNum n) => some n
    | _ => none
  | .vStr s => s.toInt?
  | _ => none

/-- Epoch milliseconds rendered for `dateRange`; `toISOString` is
abstracted to a decimal rendering (injective; no claim reads it). -/
def isoStr (n : Int) : String := toString n

/-- The `dateRange` scan: pick a date field from every item (this pass
touches every item, so a nullish item makes `store` throw here at the
latest), drop falsy picks, parse, and take min/max. -/
def dateRangeOf (data : List JsVal) : Except String (Option (String × String)) := do
  let picked ← listMapE pickDate data
  let dates := (picked.filter truthy).filterMap parseDateVal
  match dates with
  | [] => .ok none
  | d :: ds =>
    .ok (some (isoStr ((d :: ds).foldl min d), isoStr ((d :: ds).foldl max d)))

/-- Model of `generateSummary(type, data)`. -/
def generateSummary (ty : DatasetType) (data : List JsVal) : Except String DatasetSummary := do
  let preview ← listMapE (compactItem ty) (data.take 5)
  let base : DatasetSummary :=
    { totalCount := data.length, dateRange := none, statusCounts := none,
      errorCount := none, levelCounts := none, outcomeCounts := none,
      preview := some preview }
  if data.length = 0 then
    .ok base
  else do
    let dr ← dateRangeOf data
    let s1 := { base with dateRange := dr }
    match ty with
    | .messages => do
      let sc ← countByField data "status"
      let ec ← listCountE isErrorMessage data
      .ok { s1 with statusCounts := some sc, errorCount := some ec }
    | .serverLogs => do
      let lc ← countByField data "level"
      .ok { s1 with levelCounts := some lc }
    | .connectionLogs => do
      let lc ← countByField data "level"
      .ok { s1 with levelCounts := some lc }
    | .events => do
      let lc ← countByField data "level"
      let oc ← countByField data "outcome"
      .ok { s1 with levelCounts := some lc, outcomeCounts := some oc }
    | _ => .ok s1

/-! ## store -/

/-- The caller-supplied `options` object of `store`. -/
structure StoreOptions where
  channelId : Option String
  channelName : Option String
  ttlMs : Option Int
  idField : Option String

def noOptions : StoreOptions :=
  { channelId := none, channelName := none, ttlMs := none, idField := none }

/-- Model of `Math.ceil(len / pageSize)` for a positive page size (the only
regime the program's own constants and the claims reach; JS float
division with a non-positive page size is not modelled). -/
def ceilPages (len : Nat) (pageSize : Int) : Int :=
  if pageSize ≤ 0 then 0
  else Int.ofNat ((len + pageSize.toNat - 1) / pageSize.toNat)

/-- The effective TTL, `options?.ttlMs || this.DEFAULT_TTL_MS` (0 and undefined are falsy). -/
def storeTtl (options : StoreOptions) : Int :=
  match options.ttlMs with
  | some t => if t = 0 then DEFAULT_TTL_MS else t
  | none => DEFAULT_TTL_MS

/-- The effective identity field, `options?.idField || 'id'` (the empty string and undefined are falsy). -/
def storeIdField (options : StoreOptions) : String :=
  match options.idField with
  | some s => if s = "" then "id" else s
  | none => "id"

/-- The metadata record `store` builds and returns. -/
def storeMetadata (now : Int) (newId : String) (ty : DatasetType)
    (options : StoreOptions) (flattenedData : List JsVal)
    (summary : DatasetSummary) : DatasetMetadata :=
  { id := newId, type := ty,
    channelId := options.channelId, channelName := options.channelName,
    createdAt := now, expiresAt := now + storeTtl options,
    totalCount := flattenedData.length,
    pageSize := DEFAULT_PAGE_SIZE,
    totalPages := ceilPages flattenedData.length DEFAULT_PAGE_SIZE,
    summary := summary }

/-- Model of `store(type, data, options)`.  Here `generateId`'s wall-clock/random
identifier is passed in as `newId`, and `new Date()` as `now` (epoch
ms).  A thrown TypeError (see `generateSummary`) leaves the map
unregistered, since `datasets.set` runs last. -/
def storeOp (now : Int) (newId : String) (ty : DatasetType) (data : List JsVal)
    (options : StoreOptions) (st : MState) :
    Except String (DatasetMetadata × MState) :=
  let flattenedData := flattenApiResponse data
  let sortedData := jsSort (storeCmpLe (storeIdField options)) flattenedData
  let sortedIds := sortedData.map (resolveIdWith (storeIdField options))
  match generateSummary ty sortedData with
  | .error e => .error e
  | .ok summary =>
    let metadata := storeMetadata now newId ty options flattenedData summary
    .ok (metadata, setDs st newId
      { metadata := metadata, data := sortedData, sortedIds := sortedIds })

/-! ## Query engine -/

inductive SortOrder where
  | asc
  | desc
deriving DecidableEq

/-- The `DatasetQuery` request record.  Absent optional members are
`none` (undefined). -/
structure DatasetQuery where
  datasetId : String
  page : Option Int
  pageSize : Option Int
  sortBy : Option String
  sortOrder : Option SortOrder
  filters : Option (List (String × JsVal))
  search : Option String
  ids : Option (List Int)

/-- An all-defaults query against `dsId`. -/
def baseQuery (dsId : String) : DatasetQuery :=
  { datasetId := dsId, page := none, pageSize := none, sortBy := none,
    sortOrder := none, filters := none, search := none, ids := none }

/-- Model of `v || dflt` for an optional numeric member (0 is falsy). -/
def jsOrDefault (v : Option Int) (dflt : Int) : Int :=
  match v with
  | some t => if t = 0 then dflt else t
  | none => dflt

/-- Membership `new Set(ids).has(itemId)`: ids is a number set; a resolved identity
that is not a number is never a member. -/
def idInSet (l : List Int) (v : JsVal) : Bool :=
  match v with
  | .vNum n => l.contains n
  | _ => false

/-- Step 2, the identity-list filter: applied only when `ids` is present
and non-empty; membership is tested against the fixed
`'id'`/`'messageId'`/0 chain. -/
def applyIdsFilter (ids : Option (List Int)) (data : List JsVal) : List JsVal :=
  match ids with
  | some l =>
    if l.length > 0 then
      data.filter (fun item => idInSet l (resolveIdDefault item))
    else data
  | none => data

/-- One field filter: case-insensitive substring containment when both
sides are strings, strict equality otherwise. -/
def filterMatches (value itemValue : JsVal) : Bool :=
  match value, itemValue with
  | .vStr s, .vStr t => strContains t.toLower s.toLower
  | _, _ => jsStrictEq itemValue value

/-- Step 3, field filters: entries with nullish filter values are
skipped, the rest are ANDed in object-entry order. -/
def applyFieldFilters (filters : Option (List (String × JsVal))) (data : List JsVal) :
    List JsVal :=
  match filters with
  | none => data
  | some fs =>
    fs.foldl
      (fun acc fv =>
        if isNullish fv.2 then acc
        else acc.filter (fun item => filterMatches fv.2 (jsGet item fv.1)))
      data

/-- Does one field value match the free-text search?  Strings compare
case-insensitively; numbers via their decimal rendering; other value
kinds never match. -/
def searchValMatches (searchLower : String) (val : JsVal) : Bool :=
  match val with
  | .vStr s => strContains s.toLower searchLower
  | .vNum n => strContains (toString n) searchLower
  | _ => false

/-- Model of `Object.values(item)` (empty for primitives, which JS boxes). -/
def jsValues : JsVal → List JsVal
  | .vObj fields => fields.map Prod.snd
  | _ => []

/-- Step 4, free-text search (skipped for an absent or empty string,
which is falsy). -/
def applySearch (search : Option String) (data : List JsVal) : List JsVal :=
  match search with
  | none => data
  | some s =>
    if s = "" then data
    else
      data.filter (fun item => (jsValues item).any (searchValMatches s.toLower))

/-- The comparator direction, `query.sortOrder === 'asc' ? 1 : -1`. -/
def orderVal : Option SortOrder → Int
  | some .asc => 1
  | _ => -1

/-- The sort comparator: equal values tie; a missing (undefined or null)
value sorts after a present one regardless of direction; otherwise `<`
decides, flipped by `order`. -/
def sortCmp (sortBy : String) (order : Int) (a b : JsVal) : Int :=
  let aVal := jsGet a sortBy
  let bVal := jsGet b sortBy
  if jsStrictEq aVal bVal then 0
  else if isNullish aVal then 1
  else if isNullish bVal then -1
  else if jsLt aVal bVal then -order else order

/-- Step 5, sorting (skipped for an absent or empty `sortBy`). -/
def applySort (sortBy : Option String) (sortOrder : Option SortOrder)
    (data : List JsVal) : List JsVal :=
  match sortBy with
  | none => data
  | some f =>
    if f = "" then data
    else jsSort (fun a b => sortCmp f (orderVal sortOrder) a b ≤ 0) data

/-- Steps 2–5: the filtered and sorted working set that pagination
slices. -/
def filterSortPipeline (q : DatasetQuery) (data : List JsVal) : List JsVal :=
  applySort q.sortBy q.sortOrder
    (applySearch q.search
      (applyFieldFilters q.filters
        (applyIdsFilter q.ids data)))

/-- The `DatasetPage` query result. -/
structure DatasetPage where
  datasetId : String
  page : Int
  pageSize : Int
  totalPages : Int
  totalCount : Nat
  hasNext : Bool
  hasPrev : Bool
  items : List JsVal

/-- The effective page size, `Math.min(query.pageSize || this.DEFAULT_PAGE_SIZE, this.MAX_PAGE_SIZE)`. -/
def effPageSize (q : DatasetQuery) : Int :=
  min (jsOrDefault q.pageSize DEFAULT_PAGE_SIZE) MAX_PAGE_SIZE

/-- Step 6, pagination: effective page size clamped to `MAX_PAGE_SIZE`
with default `DEFAULT_PAGE_SIZE`; page number clamped into
`[1, totalPages || 1]`; the slice is
`filteredData.slice(startIndex, startIndex + pageSize)`. -/
def paginate (q : DatasetQuery) (filteredData : List JsVal) : DatasetPage :=
  let pageSize := effPageSize q
  let totalPages := ceilPages filteredData.length pageSize
  let page := max 1 (min (jsOrDefault q.page 1) (if totalPages = 0 then 1 else totalPages))
  let startIndex := (page - 1) * pageSize
  { datasetId := q.datasetId, page := page, pageSize := pageSize,
    totalPages := totalPages, totalCount := filteredData.length,
    hasNext := decide (page < totalPages), hasPrev := decide (page > 1),
    items := (filteredData.drop startIndex.toNat).take pageSize.toNat }

/-- Model of `query(query)`: not-found / lazy-evicting expiry check, then the
filter pipeline, then clamped pagination.  Returns the thrown error or
the page, together with the resulting dataset map. -/
def queryOp (now : Int) (q : DatasetQuery) (st : MState) :
    Except String DatasetPage × MState :=
  match getDs st q.datasetId with
  | none => (.error ("Dataset not found: " ++ q.datasetId ++ ". It may have expired."), st)
  | some dataset =>
    if now > dataset.metadata.expiresAt then
      (.error ("Dataset expired: " ++ q.datasetId), delDs st q.datasetId)
    else
      (.ok (paginate q (filterSortPipeline q dataset.data)), st)

/-- The items of a successful query result ([] for a thrown error). -/
def pageItems : Except String DatasetPage → List JsVal
  | .ok r => r.items
  | .error _ => []

/-! ## Point lookup, metadata, listing, lifecycle -/

/-- Whether `item` matches the `getById` scan for `itemId`. -/
def idScanMatches (itemId : Int) (item : JsVal) : Bool :=
  jsStrictEq (resolveIdDefault item) (.vNum itemId)

/-- Model of `getById(datasetId, itemId)`: throws only when the dataset id is
unknown (no expiry check); otherwise the first item whose fixed-chain
identity strictly equals `itemId`, with `item || null` mapping a falsy
found item to null. -/
def getById (st : MState) (datasetId : String) (itemId : Int) :
    Except String (Option JsVal) :=
  match getDs st datasetId with
  | none => .error ("Dataset not found: " ++ datasetId)
  | some dataset =>
    .ok (match dataset.data.find? (idScanMatches itemId) with
         | some item => if truthy item then some item else none
         | none => none)

/-- Model of `getMetadata(datasetId)`: metadata or null, with no expiry check. -/
def getMetadata (st : MState) (datasetId : String) : Option DatasetMetadata :=
  match getDs st datasetId with
  | some dataset => some dataset.metadata
  | none => none

/-- Model of `cleanup()`: evict every snapshot past expiry. -/
def cleanupOp (now : Int) (st : MState) : MState :=
  List.filter (fun p => !decide (now > p.2.metadata.expiresAt)) st

/-- Model of `listDatasets()`: sweep first, then the remaining metadata. -/
def listDatasets (now : Int) (st : MState) : List DatasetMetadata × MState :=
  let st' := cleanupOp now st
  (st'.map (fun p => p.2.metadata), st')

/-- Model of `delete(datasetId)`: removal plus the did-anything-exist flag. -/
def deleteOp (st : MState) (datasetId : String) : Bool × MState :=
  (List.any st (fun p => p.1 == datasetId), delDs st datasetId)


/-! ## The sort field viewed through the comparator -/

/-- The item has the sort field (its value is neither undefined nor null),
i.e. it is not pushed to the tail by the comparator. -/
def hasSortKey (s : String) (v : JsVal) : Bool := !isNullish (jsGet v s)

/-- The numeric sort-field value, when the field holds a number. -/
def numKey (s : String) (v : JsVal) : Option Int :=
  match jsGet v s with
  | .vNum n => some n
  | _ => none

/-- Total version of `numKey` (0 for non-numeric), used to phrase order. -/
def keyD (s : String) (v : JsVal) : Int := (numKey s v).getD 0


/-! ## Example states used by counterexamples and witnesses -/

def exSummary : DatasetSummary :=
  { totalCount := 1, dateRange := none, statusCounts := none, errorCount := none,
    levelCounts := none, outcomeCounts := none, preview := none }

def exMeta (expiry : Int) : DatasetMetadata :=
  { id := "d", type := .generic, channelId := none, channelName := none,
    createdAt := 0, expiresAt := expiry, totalCount := 1, pageSize := 50,
    totalPages := 1, summary := exSummary }

def exRec : JsVal := .vObj [("id", .vNum 5)]

/-- A snapshot whose `expiresAt` (10) is long past at `now = 1000`. -/
def expiredDs : StoredDataset :=
  { metadata := exMeta 10, data := [exRec], sortedIds := [.vNum 5] }

def expiredSt : MState := [("d", expiredDs)]

/-- An unexpired snapshot holding the single record `{id: 5}`. -/
def liveDs : StoredDataset :=
  { metadata := exMeta 1000000, data := [exRec], sortedIds := [.vNum 5] }

def liveSt : MState := [("d", liveDs)]

def recA : JsVal := .vObj [("k", .vNum 1), ("tag", .vStr "a")]
def recB : JsVal := .vObj [("k", .vNum 1), ("tag", .vStr "b")]
def recC : JsVal := .vObj [("k", .vNum 0), ("tag", .vStr "c")]
def recA2 : JsVal := .vObj [("k", .vNum 2), ("tag", .vStr "a")]
def recM : JsVal := .vObj [("tag", .vStr "m")]

/-- Items with a tie on sort field `k` (recA and recB both have k = 1). -/
def tieDs : StoredDataset :=
  { metadata := exMeta 1000000, data := [recA, recB, recC], sortedIds := [] }

def tieSt : MState := [("d", tieDs)]

/-- Items with pairwise-distinct `k` values plus one item missing `k`. -/
def distinctDs : StoredDataset :=
  { metadata := exMeta 1000000, data := [recA2, recC, recM], sortedIds := [] }

def distinctSt : MState := [("d", distinctDs)]

def qSortK : DatasetQuery := { baseQuery "d" with sortBy := some "k" }


/-! ## Properties of the stable sort -/

theorem insertLe_perm (le : α → α → Bool) (x : α) (l : List α) :
    List.Perm (insertLe le x l) (x :: l) := by
  induction l with
  | nil => exact .refl _
  | cons y ys ih =>
    simp only [insertLe]
    split
    · exact .refl _
    · exact (ih.cons y).trans (List.Perm.swap x y ys)

theorem jsSort_perm (le : α → α → Bool) (l : List α) :
    List.Perm (jsSort le l) l := by
  induction l with
  | nil => exact .refl _
  | cons x xs ih =>
    exact (insertLe_perm le x (jsSort le xs)).trans (ih.cons x)

theorem mem_insertLe {le : α → α → Bool} {x a : α} {l : List α} :
    a ∈ insertLe le x l ↔ a = x ∨ a ∈ l := by
  rw [(insertLe_perm le x l).mem_iff, List.mem_cons]

theorem mem_jsSort {le : α → α → Bool} {a : α} {l : List α} :
    a ∈ jsSort le l ↔ a ∈ l :=
  (jsSort_perm le l).mem_iff

theorem insertLe_append_of_le (le : α → α → Bool) (x : α) (A B : List α)
    (hB : ∀ b ∈ B, le x b = true) :
    insertLe le x (A ++ B) = insertLe le x A ++ B := by
  induction A with
  | nil =>
    cases B with
    | nil => rfl
    | cons b bs => simp [insertLe, hB b (by simp)]
  | cons a as ih =>
    by_cases hxa : le x a = true
    · simp [insertLe, hxa]
    · simp [insertLe, hxa, ih]

theorem insertLe_append_of_not (le : α → α → Bool) (x : α) (A B : List α)
    (hA : ∀ a ∈ A, le x a = false) :
    insertLe le x (A ++ B) = A ++ insertLe le x B := by
  induction A with
  | nil => rfl
  | cons a as ih =>
    have hxa : le x a = false := hA a (by simp)
    simp [insertLe, hxa, ih (fun a' ha' => hA a' (by simp [ha']))]

/-- Elements failing `p` sink to the tail of the sorted list, in stable
(input) order, provided `p`-elements always precede non-`p` elements
under `le` and non-`p` elements mutually tie. -/
theorem jsSort_filter_decomp (le : α → α → Bool) (p : α → Bool) (l : List α)
    (hpm : ∀ a ∈ l, ∀ b ∈ l, p a = true → p b = false → le a b = true ∧ le b a = false)
    (hmm : ∀ a ∈ l, ∀ b ∈ l, p a = false → p b = false → le a b = true) :
    jsSort le l = jsSort le (l.filter p) ++ l.filter (fun a => !p a) := by
  induction l with
  | nil => rfl
  | cons x xs ih =>
    have hpm' : ∀ a ∈ xs, ∀ b ∈ xs, p a = true → p b = false → le a b = true ∧ le b a = false :=
      fun a ha b hb => hpm a (by simp [ha]) b (by simp [hb])
    have hmm' : ∀ a ∈ xs, ∀ b ∈ xs, p a = false → p b = false → le a b = true :=
      fun a ha b hb => hmm a (by simp [ha]) b (by simp [hb])
    have key := ih hpm' hmm'
    have hxmem : x ∈ x :: xs := by simp
    have hstep : jsSort le (x :: xs) = insertLe le x (jsSort le xs) := rfl
    by_cases hx : p x = true
    · have hB : ∀ b ∈ xs.filter (fun a => !p a), le x b = true := by
        intro b hb
        have hb' := List.mem_filter.mp hb
        exact (hpm x hxmem b (by simp [hb'.1]) hx (by simpa using hb'.2)).1
      rw [hstep, key, insertLe_append_of_le le x _ _ hB,
          List.filter_cons_of_pos (by simp [hx]), List.filter_cons_of_neg (by simp [hx])]
      rfl
    · have hxf : p x = false := by simpa using hx
      have hA : ∀ a ∈ jsSort le (xs.filter p), le x a = false := by
        intro a ha
        have ha' := List.mem_filter.mp (mem_jsSort.mp ha)
        exact (hpm a (by simp [ha'.1]) x hxmem ha'.2 hxf).2
      have hxM : insertLe le x (xs.filter (fun a => !p a)) = x :: xs.filter (fun a => !p a) := by
        cases hM : xs.filter (fun a => !p a) with
        | nil => rfl
        | cons m ms =>
          have hmm2 := List.mem_filter.mp (hM ▸ List.mem_cons_self m ms)
          have : le x m = true := hmm x hxmem m (by simp [hmm2.1]) hxf (by simpa using hmm2.2)
          simp [insertLe, this]
      rw [hstep, key, insertLe_append_of_not le x _ _ hA, hxM,
          List.filter_cons_of_neg (by simp [hxf]), List.filter_cons_of_pos (by simp [hxf])]

theorem insertLe_pairwise (le : α → α → Bool) (x : α) (l : List α)
    (hl : l.Pairwise (fun a b => le a b = true))
    (htot : ∀ y ∈ l, le x y = true ∨ le y x = true)
    (htrans : ∀ y ∈ l, ∀ z ∈ l, le x y = true → le y z = true → le x z = true) :
    (insertLe le x l).Pairwise (fun a b => le a b = true) := by
  induction l with
  | nil => simp [insertLe]
  | cons y ys ih =>
    rcases List.pairwise_cons.mp hl with ⟨hy, hys⟩
    simp only [insertLe]
    split
    case isTrue hxy =>
      refine List.pairwise_cons.mpr ⟨?_, hl⟩
      intro z hz
      rcases List.mem_cons.mp hz with rfl | hz
      · exact hxy
      · exact htrans y (by simp) z (by simp [hz]) hxy (hy z hz)
    case isFalse hxy =>
      refine List.pairwise_cons.mpr ⟨?_, ?_⟩
      · intro z hz
        rcases mem_insertLe.mp hz with rfl | hz
        · rcases htot y (by simp) with h | h
          · exact absurd h (by simpa using hxy)
          · exact h
        · exact hy z hz
      · exact ih hys (fun y' hy' => htot y' (by simp [hy']))
          (fun y' hy' z hz => htrans y' (by simp [hy']) z (by simp [hz]))

theorem jsSort_pairwise (le : α → α → Bool) (l : List α)
    (htot : ∀ a ∈ l, ∀ b ∈ l, le a b = true ∨ le b a = true)
    (htrans : ∀ a ∈ l, ∀ b ∈ l, ∀ c ∈ l, le a b = true → le b c = true → le a c = true) :
    (jsSort le l).Pairwise (fun a b => le a b = true) := by
  induction l with
  | nil => constructor
  | cons x xs ih =>
    have hmem : ∀ a ∈ jsSort le xs, a ∈ xs := fun a ha => mem_jsSort.mp ha
    have htot' : ∀ a ∈ xs, ∀ b ∈ xs, le a b = true ∨ le b a = true :=
      fun a ha b hb => htot a (by simp [ha]) b (by simp [hb])
    have htrans' : ∀ a ∈ xs, ∀ b ∈ xs, ∀ c ∈ xs,
        le a b = true → le b c = true → le a c = true :=
      fun a ha b hb c hc => htrans a (by simp [ha]) b (by simp [hb]) c (by simp [hc])
    exact insertLe_pairwise le x (jsSort le xs) (ih htot' htrans')
      (fun y hy => htot x (by simp) y (by simp [hmem y hy]))
      (fun y hy z hz => htrans x (by simp) y (by simp [hmem y hy]) z (by simp [hmem z hz]))

/-! ## Pagination arithmetic -/

theorem join_take (p : Nat) (L : List α) (n : Nat) :
    ((List.range n).map (fun i => (L.drop (i * p)).take p)).flatten = L.take (n * p) := by
  induction n with
  | zero => simp
  | succ n ih =>
    rw [List.range_succ, List.map_append, List.flatten_append, ih]
    simp only [List.map_cons, List.map_nil, List.flatten_cons, List.flatten_nil, List.append_nil]
    rw [Nat.succ_mul, List.take_add]

theorem ceil_mul_ge (p : Nat) (hp : 0 < p) (n : Nat) :
    n ≤ ((n + p - 1) / p) * p := by
  have h1 := Nat.div_add_mod (n + p - 1) p
  have h2 : (n + p - 1) % p < p := Nat.mod_lt _ hp
  rw [Nat.mul_comm]
  generalize p * ((n + p - 1) / p) = m at h1 ⊢
  omega

theorem join_pages (p : Nat) (hp : 0 < p) (L : List α) :
    ((List.range ((L.length + p - 1) / p)).map (fun i => (L.drop (i * p)).take p)).flatten = L := by
  rw [join_take]
  exact List.take_of_length_le (ceil_mul_ge p hp L.length)

/-! ## Unfolding `queryOp` -/

theorem queryOp_not_found (st : MState) (now : Int) (q : DatasetQuery)
    (hd : getDs st q.datasetId = none) :
    queryOp now q st =
      (.error ("Dataset not found: " ++ q.datasetId ++ ". It may have expired."), st) := by
  simp [queryOp, hd]

theorem queryOp_expired (st : MState) (now : Int) (q : DatasetQuery) (d : StoredDataset)
    (hd : getDs st q.datasetId = some d) (hexp : now > d.metadata.expiresAt) :
    queryOp now q st = (.error ("Dataset expired: " ++ q.datasetId), delDs st q.datasetId) := by
  simp [queryOp, hd, hexp]

theorem queryOp_ok (st : MState) (now : Int) (q : DatasetQuery) (d : StoredDataset)
    (hd : getDs st q.datasetId = some d) (hexp : ¬ now > d.metadata.expiresAt) :
    queryOp now q st = (.ok (paginate q (filterSortPipeline q d.data)), st) := by
  simp [queryOp, hd, hexp]

/-- The effective page size for a requested size in `[1,100]`. -/
theorem effective_pageSize {q : DatasetQuery} {p : Int}
    (hq : q.pageSize = some p) (h1 : 1 ≤ p) (h2 : p ≤ 100) :
    effPageSize q = p := by
  have h : jsOrDefault (some p) DEFAULT_PAGE_SIZE = p := by
    simp only [jsOrDefault]
    rw [if_neg (by omega)]
  unfold effPageSize MAX_PAGE_SIZE
  rw [hq, h]
  omega

theorem ceilPages_coe (len p : Nat) (hp : 0 < p) :
    ceilPages len ((p : Nat) : Int) = (((len + p - 1) / p : Nat) : Int) := by
  unfold ceilPages
  rw [if_neg (by omega)]
  norm_cast

/-- Applying `paginate` at an in-range page `i+1` with page size `p ∈ [1,100]`
slices out exactly the `i`-th chunk. -/
theorem paginate_in_range (q : DatasetQuery) (F : List JsVal) (p i : Nat)
    (hp1 : 1 ≤ p) (hp2 : p ≤ 100)
    (hps : q.pageSize = some ((p : Nat) : Int))
    (hpg : q.page = some (((i + 1 : Nat) : Int)))
    (hi : i < (F.length + p - 1) / p) :
    paginate q F = { datasetId := q.datasetId,
                     page := ((i + 1 : Nat) : Int),
                     pageSize := ((p : Nat) : Int),
                     totalPages := (((F.length + p - 1) / p : Nat) : Int),
                     totalCount := F.length,
                     hasNext := decide (((i + 1 : Nat) : Int) < (((F.length + p - 1) / p : Nat) : Int)),
                     hasPrev := decide ((((i + 1 : Nat) : Int)) > 1),
                     items := (F.drop (i * p)).take p } := by
  have hp' : (1 : Int) ≤ ((p : Nat) : Int) := by exact_mod_cast hp1
  have hp'' : ((p : Nat) : Int) ≤ 100 := by exact_mod_cast hp2
  have hsize := effective_pageSize hps hp' hp''
  simp only [paginate, hpg]
  rw [hsize, ceilPages_coe _ _ (show 0 < p by omega)]
  have hnp_pos : 0 < (F.length + p - 1) / p := Nat.pos_of_ne_zero (by omega)
  have hii : ((i + 1 : Nat) : Int) ≤ (((F.length + p - 1) / p : Nat) : Int) := by
    exact_mod_cast hi
  have hclamp : max 1 (min (jsOrDefault (some ((i + 1 : Nat) : Int)) 1)
      (if (((F.length + p - 1) / p : Nat) : Int) = 0 then 1
       else (((F.length + p - 1) / p : Nat) : Int)))
      = ((i + 1 : Nat) : Int) := by
    have h : jsOrDefault (some ((i + 1 : Nat) : Int)) 1 = ((i + 1 : Nat) : Int) := by
      simp only [jsOrDefault]
      rw [if_neg (by exact_mod_cast Nat.succ_ne_zero i)]
    rw [h, if_neg (by omega)]
    omega
  rw [hclamp]
  have hstart : ((((i + 1 : Nat) : Int) - 1) * ((p : Nat) : Int)).toNat = i * p := by
    have h : (((i + 1 : Nat) : Int) - 1) * ((p : Nat) : Int) = ((i * p : Nat) : Int) := by
      push_cast
      ring
    rw [h, Int.toNat_natCast]
  rw [hstart]
  have htake : (((p : Nat) : Int)).toNat = p := Int.toNat_natCast p
  rw [htake]

theorem keyD_of_num {s : String} {v : JsVal} {n : Int} (h : jsGet v s = .vNum n) :
    keyD s v = n := by
  simp [keyD, numKey, h]

theorem cmp_num (s : String) (order : Int) (a b : JsVal) (x y : Int)
    (ha : jsGet a s = .vNum x) (hb : jsGet b s = .vNum y) :
    sortCmp s order a b = if x = y then 0 else if x < y then -order else order := by
  by_cases hxy : x = y
  · subst hxy
    simp [sortCmp, ha, hb, jsStrictEq]
  · by_cases hlt : x < y
    · simp [sortCmp, ha, hb, jsStrictEq, isNullish, jsLt, jsToNumber, hxy, hlt]
    · simp [sortCmp, ha, hb, jsStrictEq, isNullish, jsLt, jsToNumber, hxy, hlt]

theorem cmp_pm (s : String) (order : Int) (a b : JsVal) (x : Int)
    (ha : jsGet a s = .vNum x) (hb : jsGet b s = .vUndefined) :
    sortCmp s order a b = -1 := by
  simp [sortCmp, ha, hb, jsStrictEq, isNullish]

theorem cmp_mp (s : String) (order : Int) (a b : JsVal) (x : Int)
    (ha : jsGet a s = .vUndefined) (hb : jsGet b s = .vNum x) :
    sortCmp s order a b = 1 := by
  simp [sortCmp, ha, hb, jsStrictEq, isNullish]

theorem cmp_mm (s : String) (order : Int) (a b : JsVal)
    (ha : jsGet a s = .vUndefined) (hb : jsGet b s = .vUndefined) :
    sortCmp s order a b = 0 := by
  simp [sortCmp, ha, hb, jsStrictEq]

theorem leA_num (s : String) (a b : JsVal) (x y : Int)
    (ha : jsGet a s = .vNum x) (hb : jsGet b s = .vNum y) :
    decide (sortCmp s 1 a b ≤ 0) = decide (x ≤ y) := by
  rw [cmp_num s 1 a b x y ha hb]
  by_cases hxy : x = y
  · simp [hxy]
  · by_cases hlt : x < y
    · simp [hxy, hlt, Int.le_of_lt hlt]
    · simp [hxy, hlt, show ¬ x ≤ y by omega]

theorem leD_num (s : String) (a b : JsVal) (x y : Int)
    (ha : jsGet a s = .vNum x) (hb : jsGet b s = .vNum y) :
    decide (sortCmp s (-1) a b ≤ 0) = decide (y ≤ x) := by
  rw [cmp_num s (-1) a b x y ha hb]
  by_cases hxy : x = y
  · simp [hxy]
  · by_cases hlt : x < y
    · simp [hxy, hlt, show ¬ y ≤ x by omega]
    · simp [hxy, hlt, show y ≤ x by omega]

theorem filterMap_numKey_eq (s : String) (l : List JsVal)
    (h1 : ∀ v ∈ l, jsGet v s = .vUndefined ∨ ∃ n, jsGet v s = JsVal.vNum n) :
    l.filterMap (numKey s) = (l.filter (hasSortKey s)).map (keyD s) := by
  induction l with
  | nil => rfl
  | cons v vs ih =>
    have hv := h1 v (by simp)
    have ih' := ih (fun w hw => h1 w (by simp [hw]))
    rcases hv with hu | ⟨n, hn⟩
    · rw [List.filterMap_cons, List.filter_cons]
      simp [numKey, hasSortKey, isNullish, hu, ih']
    · rw [List.filterMap_cons, List.filter_cons]
      simp [numKey, hasSortKey, isNullish, hn, ih', keyD]

/-- With pairwise-distinct numeric sort keys (items lacking the field
aside), the ascending stable sort is the reverse of the descending one
on the keyed part, with the unkeyed items trailing in both. -/
theorem jsSort_asc_reverse_desc (s : String) (l : List JsVal)
    (h1 : ∀ v ∈ l, jsGet v s = .vUndefined ∨ ∃ n, jsGet v s = JsVal.vNum n)
    (h2 : (l.filterMap (numKey s)).Nodup) :
    jsSort (fun a b => decide (sortCmp s 1 a b ≤ 0)) l
      = ((jsSort (fun a b => decide (sortCmp s (-1) a b ≤ 0)) l).filter (hasSortKey s)).reverse
        ++ (jsSort (fun a b => decide (sortCmp s (-1) a b ≤ 0)) l).filter
             (fun v => !hasSortKey s v) := by
  have hkeyT : ∀ v ∈ l, hasSortKey s v = true → jsGet v s = JsVal.vNum (keyD s v) := by
    intro v hv ht
    rcases h1 v hv with hu | ⟨n, hn⟩
    · rw [hasSortKey, hu] at ht
      simp [isNullish] at ht
    · rw [hn, keyD_of_num hn]
  have hkeyF : ∀ v ∈ l, hasSortKey s v = false → jsGet v s = JsVal.vUndefined := by
    intro v hv hf
    rcases h1 v hv with hu | ⟨n, hn⟩
    · exact hu
    · rw [hasSortKey, hn] at hf
      simp [isNullish] at hf
  -- decomposition hypotheses, for either direction of the comparator
  have hpm : ∀ order : Int, ∀ a ∈ l, ∀ b ∈ l, hasSortKey s a = true → hasSortKey s b = false →
      (fun a b => decide (sortCmp s order a b ≤ 0)) a b = true ∧
      (fun a b => decide (sortCmp s order a b ≤ 0)) b a = false := by
    intro order a ha b hb hta hfb
    have hka := hkeyT a ha hta
    have hkb := hkeyF b hb hfb
    constructor
    · simp [cmp_pm s order a b (keyD s a) hka hkb]
    · simp [cmp_mp s order b a (keyD s a) hkb hka]
  have hmm : ∀ order : Int, ∀ a ∈ l, ∀ b ∈ l, hasSortKey s a = false → hasSortKey s b = false →
      (fun a b => decide (sortCmp s order a b ≤ 0)) a b = true := by
    intro order a ha b hb hfa hfb
    simp [cmp_mm s order a b (hkeyF a ha hfa) (hkeyF b hb hfb)]
  have hdecA := jsSort_filter_decomp (fun a b => decide (sortCmp s 1 a b ≤ 0))
    (hasSortKey s) l (hpm 1) (hmm 1)
  have hdecD := jsSort_filter_decomp (fun a b => decide (sortCmp s (-1) a b ≤ 0))
    (hasSortKey s) l (hpm (-1)) (hmm (-1))
  -- the two filters of the descending result
  have hSDmem : ∀ v ∈ jsSort (fun a b => decide (sortCmp s (-1) a b ≤ 0))
      (l.filter (hasSortKey s)), hasSortKey s v = true := by
    intro v hv
    exact (List.mem_filter.mp (mem_jsSort.mp hv)).2
  have hMfalse : ∀ v ∈ l.filter (fun v => !hasSortKey s v), hasSortKey s v = false := by
    intro v hv
    simpa using (List.mem_filter.mp hv).2
  have e1 : (jsSort (fun a b => decide (sortCmp s (-1) a b ≤ 0))
      (l.filter (hasSortKey s))).filter (hasSortKey s)
      = jsSort (fun a b => decide (sortCmp s (-1) a b ≤ 0)) (l.filter (hasSortKey s)) :=
    List.filter_eq_self.mpr hSDmem
  have e2 : (l.filter (fun v => !hasSortKey s v)).filter (hasSortKey s) = [] :=
    List.filter_eq_nil_iff.mpr (fun v hv => by simp [hMfalse v hv])
  have e3 : (jsSort (fun a b => decide (sortCmp s (-1) a b ≤ 0))
      (l.filter (hasSortKey s))).filter (fun v => !hasSortKey s v) = [] :=
    List.filter_eq_nil_iff.mpr (fun v hv => by simp [hSDmem v hv])
  have e4 : (l.filter (fun v => !hasSortKey s v)).filter (fun v => !hasSortKey s v)
      = l.filter (fun v => !hasSortKey s v) :=
    List.filter_eq_self.mpr (fun v hv => by simp [hMfalse v hv])
  have hfilter1 : (jsSort (fun a b => decide (sortCmp s (-1) a b ≤ 0)) l).filter (hasSortKey s)
      = jsSort (fun a b => decide (sortCmp s (-1) a b ≤ 0)) (l.filter (hasSortKey s)) := by
    rw [hdecD, List.filter_append, e1, e2, List.append_nil]
  have hfilter2 : (jsSort (fun a b => decide (sortCmp s (-1) a b ≤ 0)) l).filter
      (fun v => !hasSortKey s v) = l.filter (fun v => !hasSortKey s v) := by
    rw [hdecD, List.filter_append, e3, e4, List.nil_append]
  rw [hfilter1, hfilter2, hdecA]
  -- it remains to reverse the keyed part
  congr 1
  -- memberships of the keyed part
  have hlpmem : ∀ v ∈ l.filter (hasSortKey s), jsGet v s = JsVal.vNum (keyD s v) := by
    intro v hv
    have h := List.mem_filter.mp hv
    exact hkeyT v h.1 h.2
  -- the strict order on keys
  haveI hanti : IsAntisymm JsVal (fun a b => keyD s a < keyD s b) :=
    ⟨fun a b hab hba => absurd hba (by omega)⟩
  -- permutation between the two sorted keyed parts
  have hpermA := jsSort_perm (fun a b => decide (sortCmp s 1 a b ≤ 0)) (l.filter (hasSortKey s))
  have hpermD := jsSort_perm (fun a b => decide (sortCmp s (-1) a b ≤ 0)) (l.filter (hasSortKey s))
  have hperm : List.Perm (jsSort (fun a b => decide (sortCmp s 1 a b ≤ 0)) (l.filter (hasSortKey s)))
      ((jsSort (fun a b => decide (sortCmp s (-1) a b ≤ 0)) (l.filter (hasSortKey s))).reverse) :=
    (hpermA.trans hpermD.symm).trans (List.reverse_perm _).symm
  -- key nodup on the keyed part
  have hnodup : ((l.filter (hasSortKey s)).map (keyD s)).Nodup := by
    rw [← filterMap_numKey_eq s l h1]
    exact h2
  have hnodupA : ((jsSort (fun a b => decide (sortCmp s 1 a b ≤ 0))
      (l.filter (hasSortKey s))).map (keyD s)).Nodup :=
    (hpermA.map (keyD s)).symm.nodup hnodup
  have hnodupD : ((jsSort (fun a b => decide (sortCmp s (-1) a b ≤ 0))
      (l.filter (hasSortKey s))).map (keyD s)).Nodup :=
    (hpermD.map (keyD s)).symm.nodup hnodup
  -- sortedness of the ascending keyed part
  have hsortA : (jsSort (fun a b => decide (sortCmp s 1 a b ≤ 0))
      (l.filter (hasSortKey s))).Pairwise (fun a b => keyD s a < keyD s b) := by
    have hpw : (jsSort (fun a b => decide (sortCmp s 1 a b ≤ 0))
        (l.filter (hasSortKey s))).Pairwise
        (fun a b => (fun a b => decide (sortCmp s 1 a b ≤ 0)) a b = true) := by
      apply jsSort_pairwise
      · intro a ha b hb
        rw [leA_num s a b (keyD s a) (keyD s b) (hlpmem a ha) (hlpmem b hb),
            leA_num s b a (keyD s b) (keyD s a) (hlpmem b hb) (hlpmem a ha)]
        by_cases h : keyD s a ≤ keyD s b
        · left; simp [h]
        · right; simp [show keyD s b ≤ keyD s a by omega]
      · intro a ha b hb c hc hab hbc
        rw [leA_num s a b (keyD s a) (keyD s b) (hlpmem a ha) (hlpmem b hb)] at hab
        rw [leA_num s b c (keyD s b) (keyD s c) (hlpmem b hb) (hlpmem c hc)] at hbc
        rw [leA_num s a c (keyD s a) (keyD s c) (hlpmem a ha) (hlpmem c hc)]
        simp only [decide_eq_true_eq] at hab hbc ⊢
        omega
    have hle : (jsSort (fun a b => decide (sortCmp s 1 a b ≤ 0))
        (l.filter (hasSortKey s))).Pairwise (fun a b => keyD s a ≤ keyD s b) := by
      refine hpw.imp_of_mem ?_
      intro a b ha hb h
      have ha' := hlpmem a (hpermA.mem_iff.mp ha)
      have hb' := hlpmem b (hpermA.mem_iff.mp hb)
      have h' : decide (sortCmp s 1 a b ≤ 0) = true := h
      rw [leA_num s a b (keyD s a) (keyD s b) ha' hb'] at h'
      simpa using h'
    have hne : (jsSort (fun a b => decide (sortCmp s 1 a b ≤ 0))
        (l.filter (hasSortKey s))).Pairwise (fun a b => keyD s a ≠ keyD s b) :=
      List.pairwise_map.mp hnodupA
    exact (hle.and hne).imp (fun h => by omega)
  -- sortedness of the reversed descending keyed part
  have hsortD : ((jsSort (fun a b => decide (sortCmp s (-1) a b ≤ 0))
      (l.filter (hasSortKey s))).reverse).Pairwise (fun a b => keyD s a < keyD s b) := by
    rw [List.pairwise_reverse]
    have hpw : (jsSort (fun a b => decide (sortCmp s (-1) a b ≤ 0))
        (l.filter (hasSortKey s))).Pairwise
        (fun a b => (fun a b => decide (sortCmp s (-1) a b ≤ 0)) a b = true) := by
      apply jsSort_pairwise
      · intro a ha b hb
        rw [leD_num s a b (keyD s a) (keyD s b) (hlpmem a ha) (hlpmem b hb),
            leD_num s b a (keyD s b) (keyD s a) (hlpmem b hb) (hlpmem a ha)]
        by_cases h : keyD s b ≤ keyD s a
        · left; simp [h]
        · right; simp [show keyD s a ≤ keyD s b by omega]
      · intro a ha b hb c hc hab hbc
        rw [leD_num s a b (keyD s a) (keyD s b) (hlpmem a ha) (hlpmem b hb)] at hab
        rw [leD_num s b c (keyD s b) (keyD s c) (hlpmem b hb) (hlpmem c hc)] at hbc
        rw [leD_num s a c (keyD s a) (keyD s c) (hlpmem a ha) (hlpmem c hc)]
        simp only [decide_eq_true_eq] at hab hbc ⊢
        omega
    have hle : (jsSort (fun a b => decide (sortCmp s (-1) a b ≤ 0))
        (l.filter (hasSortKey s))).Pairwise (fun a b => keyD s b ≤ keyD s a) := by
      refine hpw.imp_of_mem ?_
      intro a b ha hb h
      have ha' := hlpmem a (hpermD.mem_iff.mp ha)
      have hb' := hlpmem b (hpermD.mem_iff.mp hb)
      have h' : decide (sortCmp s (-1) a b ≤ 0) = true := h
      rw [leD_num s a b (keyD s a) (keyD s b) ha' hb'] at h'
      simpa using h'
    have hne : (jsSort (fun a b => decide (sortCmp s (-1) a b ≤ 0))
        (l.filter (hasSortKey s))).Pairwise (fun a b => keyD s a ≠ keyD s b) :=
      List.pairwise_map.mp hnodupD
    exact (hle.and hne).imp (fun h => by omega)
  exact List.eq_of_perm_of_sorted hperm hsortA hsortD

/-- Claim C3: for every unexpired dataset, page size `p ∈ [1,100]` and
fixed filters/sort, the pages `1..ceil(n/p)` of `query` concatenate to
exactly the filtered-and-sorted working set: each filtered item appears
exactly once, with no duplicates and no omissions. -/
theorem query_pages_partition
    (st : MState) (now : Int) (q : DatasetQuery) (d : StoredDataset) (p : Nat)
    (hd : getDs st q.datasetId = some d) (hexp : ¬ now > d.metadata.expiresAt)
    (_hsafe : ∀ v ∈ d.data, isNullish v = false)
    (hp1 : 1 ≤ p) (hp2 : p ≤ 100) :
    ((List.range (((filterSortPipeline q d.data).length + p - 1) / p)).map
        (fun i => pageItems (queryOp now
          { q with page := some ((i + 1 : Nat) : Int),
                   pageSize := some ((p : Nat) : Int) } st).1)).flatten
      = filterSortPipeline q d.data := by
  have hmap : ∀ i ∈ List.range (((filterSortPipeline q d.data).length + p - 1) / p),
      pageItems (queryOp now
        { q with page := some ((i + 1 : Nat) : Int),
                 pageSize := some ((p : Nat) : Int) } st).1
      = ((filterSortPipeline q d.data).drop (i * p)).take p := by
    intro i hi
    have hi' := List.mem_range.mp hi
    rw [queryOp_ok st now
      { q with page := some ((i + 1 : Nat) : Int),
               pageSize := some ((p : Nat) : Int) } d hd hexp]
    have hpip : filterSortPipeline
        { q with page := some ((i + 1 : Nat) : Int),
                 pageSize := some ((p : Nat) : Int) } d.data
        = filterSortPipeline q d.data := rfl
    rw [hpip]
    rw [paginate_in_range _ _ p i hp1 hp2 rfl rfl hi']
    rfl
  rw [List.map_congr_left hmap]
  exact join_pages p (by omega) _

theorem ceil_pred_mul_lt (s len : Nat) (hs : 0 < s) (h1 : 1 ≤ (len + s - 1) / s) :
    ((len + s - 1) / s - 1) * s < len := by
  have h2 : ((len + s - 1) / s) * s ≤ len + s - 1 := Nat.div_mul_le_self _ _
  have h3 : len ≠ 0 := by
    intro h0
    rw [h0] at h1
    have : (0 + s - 1) / s = 0 := Nat.div_eq_of_lt (by omega)
    omega
  have h4 : ((len + s - 1) / s - 1) * s = ((len + s - 1) / s) * s - s := by
    rw [Nat.sub_mul, Nat.one_mul]
  rw [h4]
  generalize ((len + s - 1) / s) * s = m at h2 ⊢
  omega

theorem paginate_overflow (q : DatasetQuery) (F : List JsVal) (requested : Int)
    (hps : 0 < effPageSize q) (hpage : q.page = some requested)
    (htp : 1 ≤ ceilPages F.length (effPageSize q))
    (hreq : ceilPages F.length (effPageSize q) < requested) :
    paginate q F = paginate { q with page := some (ceilPages F.length (effPageSize q)) } F
    ∧ (paginate q F).page = ceilPages F.length (effPageSize q)
    ∧ (paginate q F).items ≠ [] := by
  have hps' : effPageSize { q with page := some (ceilPages F.length (effPageSize q)) }
      = effPageSize q := rfl
  have h1 : jsOrDefault (some requested) 1 = requested := by
    simp only [jsOrDefault]
    rw [if_neg (by omega)]
  have h2 : jsOrDefault (some (ceilPages F.length (effPageSize q))) 1
      = ceilPages F.length (effPageSize q) := by
    simp only [jsOrDefault]
    rw [if_neg (by omega)]
  have hclamp1 : max 1 (min (jsOrDefault (some requested) 1)
      (if ceilPages F.length (effPageSize q) = 0 then 1 else ceilPages F.length (effPageSize q)))
      = ceilPages F.length (effPageSize q) := by
    rw [h1, if_neg (by omega)]
    omega
  have hclamp2 : max 1 (min (jsOrDefault (some (ceilPages F.length (effPageSize q))) 1)
      (if ceilPages F.length (effPageSize q) = 0 then 1 else ceilPages F.length (effPageSize q)))
      = ceilPages F.length (effPageSize q) := by
    rw [h2, if_neg (by omega)]
    omega
  have hmain : paginate q F = paginate { q with page := some (ceilPages F.length (effPageSize q)) } F := by
    simp only [paginate, hps', hpage, hclamp1, hclamp2]
  have hpagev : (paginate q F).page = ceilPages F.length (effPageSize q) := by
    simp only [paginate, hpage, hclamp1]
  have hitems : (paginate q F).items ≠ [] := by
    simp only [paginate, hpage, hclamp1]
    -- items = take (effPageSize q).toNat (drop ((tp - 1) * effPageSize q).toNat F)
    have hs : 0 < (effPageSize q).toNat := by omega
    have htpn : ceilPages F.length (effPageSize q)
        = ((((F.length + (effPageSize q).toNat - 1) / (effPageSize q).toNat : Nat)) : Int) := by
      unfold ceilPages
      rw [if_neg (by omega)]
      rfl
    have htq : 1 ≤ (F.length + (effPageSize q).toNat - 1) / (effPageSize q).toNat := by
      rw [htpn] at htp
      exact_mod_cast htp
    have hlt := ceil_pred_mul_lt (effPageSize q).toNat F.length hs htq
    have hcast : effPageSize q = (((effPageSize q).toNat : Nat) : Int) :=
      (Int.toNat_of_nonneg (by omega)).symm
    have hstart : ((ceilPages F.length (effPageSize q) - 1) * effPageSize q).toNat
        = ((F.length + (effPageSize q).toNat - 1) / (effPageSize q).toNat - 1)
          * (effPageSize q).toNat := by
      rw [htpn]
      have h4 : (((F.length + (effPageSize q).toNat - 1) / (effPageSize q).toNat - 1 : Nat) : Int)
          = (((F.length + (effPageSize q).toNat - 1) / (effPageSize q).toNat : Nat) : Int) - 1 := by
        omega
      have h5 : ((((F.length + (effPageSize q).toNat - 1) / (effPageSize q).toNat : Nat) : Int) - 1)
            * effPageSize q
          = ((((F.length + (effPageSize q).toNat - 1) / (effPageSize q).toNat - 1)
              * (effPageSize q).toNat : Nat) : Int) := by
        rw [← h4, Nat.cast_mul, ← hcast]
      rw [h5]
      exact Int.toNat_natCast _
    rw [hstart]
    intro hnil
    rcases List.take_eq_nil_iff.mp hnil with h | h
    · omega
    · rw [List.drop_eq_nil_iff] at h
      omega
  exact ⟨hmain, hpagev, hitems⟩

/-- Claim C4: a requested page number beyond the last valid page returns
the last valid page's content (the page number is clamped into
`[1, totalPages]`), not an empty result or an error. -/
theorem query_page_overflow
    (st : MState) (now : Int) (q : DatasetQuery) (d : StoredDataset) (requested : Int)
    (hd : getDs st q.datasetId = some d) (hexp : ¬ now > d.metadata.expiresAt)
    (_hsafe : ∀ v ∈ d.data, isNullish v = false)
    (hps : 0 < effPageSize q)
    (hpage : q.page = some requested)
    (htp : 1 ≤ ceilPages (filterSortPipeline q d.data).length (effPageSize q))
    (hreq : ceilPages (filterSortPipeline q d.data).length (effPageSize q) < requested) :
    (queryOp now q st).1
      = (queryOp now
          { q with page := some (ceilPages (filterSortPipeline q d.data).length (effPageSize q)) }
          st).1
    ∧ ∃ r, (queryOp now q st).1 = .ok r
        ∧ r.page = ceilPages (filterSortPipeline q d.data).length (effPageSize q)
        ∧ r.items ≠ [] := by
  obtain ⟨hmain, hpagev, hitems⟩ :=
    paginate_overflow q (filterSortPipeline q d.data) requested hps hpage htp hreq
  have hq' : filterSortPipeline
      { q with page := some (ceilPages (filterSortPipeline q d.data).length (effPageSize q)) }
      d.data
      = filterSortPipeline q d.data := rfl
  rw [queryOp_ok st now q d hd hexp,
      queryOp_ok st now
        { q with page := some (ceilPages (filterSortPipeline q d.data).length (effPageSize q)) }
        d hd hexp,
      hq']
  exact ⟨by rw [hmain], paginate q (filterSortPipeline q d.data), rfl, hpagev, hitems⟩

/-! ## Filter stages produce sublists; single-page queries -/

theorem applyIdsFilter_sublist (ids : Option (List Int)) (l : List JsVal) :
    List.Sublist (applyIdsFilter ids l) l := by
  unfold applyIdsFilter
  match ids with
  | none => exact List.Sublist.refl l
  | some L =>
    by_cases h : L.length > 0
    · simp only [h, if_pos]
      exact List.filter_sublist l
    · simp only [h, if_neg, ite_false]
      exact List.Sublist.refl l

theorem applyFieldFilters_sublist (filters : Option (List (String × JsVal))) (l : List JsVal) :
    List.Sublist (applyFieldFilters filters l) l := by
  unfold applyFieldFilters
  match filters with
  | none => exact List.Sublist.refl l
  | some fs =>
    induction fs generalizing l with
    | nil => exact List.Sublist.refl l
    | cons fv rest ih =>
      simp only [List.foldl_cons]
      by_cases h : isNullish fv.2 = true
      · simp only [h, if_pos]
        exact ih l
      · simp only [h, if_neg, ite_false]
        exact (ih _).trans (List.filter_sublist l)

theorem applySearch_sublist (search : Option String) (l : List JsVal) :
    List.Sublist (applySearch search l) l := by
  unfold applySearch
  match search with
  | none => exact List.Sublist.refl l
  | some s =>
    by_cases h : s = ""
    · simp only [h, if_pos]
      exact List.Sublist.refl l
    · simp only [h, if_neg, ite_false]
      exact List.filter_sublist l

theorem preSort_sublist (q : DatasetQuery) (l : List JsVal) :
    List.Sublist (applySearch q.search (applyFieldFilters q.filters (applyIdsFilter q.ids l))) l :=
  ((applySearch_sublist q.search _).trans (applyFieldFilters_sublist q.filters _)).trans
    (applyIdsFilter_sublist q.ids l)

/-- A query with page size 100 and no page number returns everything
(when at most 100 items survive the filters). -/
theorem paginate_all (q : DatasetQuery) (F : List JsVal)
    (hps : q.pageSize = some 100) (hpg : q.page = none) (hlen : F.length ≤ 100) :
    (paginate q F).items = F ∧ (paginate q F).totalCount = F.length := by
  have hsize : effPageSize q = 100 := effective_pageSize hps (by omega) (by omega)
  have h1 : jsOrDefault none 1 = 1 := rfl
  constructor
  · simp only [paginate, hpg, hsize, h1]
    have htp : (0 : Int) ≤ ceilPages F.length 100 := by
      unfold ceilPages
      rw [if_neg (by omega)]
      exact Int.natCast_nonneg _
    have hpage : max 1 (min 1 (if ceilPages F.length 100 = 0 then 1 else ceilPages F.length 100))
        = 1 := by
      by_cases h : ceilPages F.length 100 = 0
      · simp [h]
      · rw [if_neg h]
        omega
    rw [hpage]
    simp only [sub_self, Int.zero_mul, Int.toNat_zero, List.drop_zero]
    exact List.take_of_length_le (by simpa using hlen)
  · simp [paginate]

/-- Claim C5 (amended): with a sort field whose present values are
numeric and pairwise distinct, the ascending query order is exactly the
reverse of the descending one on the items that have the field, while
items missing it trail in both directions (ties among equal sort keys
are stable in input order in both directions, so exact reversal needs
the distinctness hypothesis). -/
theorem query_sort_asc_reverse_desc
    (st : MState) (now : Int) (q : DatasetQuery) (d : StoredDataset) (s : String)
    (hd : getDs st q.datasetId = some d) (hexp : ¬ now > d.metadata.expiresAt)
    (hsort : q.sortBy = some s) (hs : s ≠ "")
    (_hsafe : ∀ v ∈ d.data, isNullish v = false)
    (h1 : ∀ v ∈ d.data, jsGet v s = JsVal.vUndefined ∨ ∃ n, jsGet v s = JsVal.vNum n)
    (h2 : (d.data.filterMap (numKey s)).Nodup)
    (hlen : (applySearch q.search (applyFieldFilters q.filters
        (applyIdsFilter q.ids d.data))).length ≤ 100) :
    pageItems (queryOp now
        { q with sortOrder := some .asc, page := none, pageSize := some 100 } st).1
      = ((pageItems (queryOp now
            { q with sortOrder := some .desc, page := none, pageSize := some 100 } st).1).filter
            (hasSortKey s)).reverse
        ++ (pageItems (queryOp now
            { q with sortOrder := some .desc, page := none, pageSize := some 100 } st).1).filter
            (fun v => !hasSortKey s v) := by
  have hsub := preSort_sublist q d.data
  have h1' : ∀ v ∈ applySearch q.search (applyFieldFilters q.filters (applyIdsFilter q.ids d.data)),
      jsGet v s = JsVal.vUndefined ∨ ∃ n, jsGet v s = JsVal.vNum n :=
    fun v hv => h1 v (hsub.mem hv)
  have h2' : ((applySearch q.search (applyFieldFilters q.filters
      (applyIdsFilter q.ids d.data))).filterMap (numKey s)).Nodup :=
    (hsub.filterMap (numKey s)).nodup h2
  rw [queryOp_ok st now { q with sortOrder := some .asc, page := none, pageSize := some 100 }
        d hd hexp,
      queryOp_ok st now { q with sortOrder := some .desc, page := none, pageSize := some 100 }
        d hd hexp]
  have hpipA : filterSortPipeline
      { q with sortOrder := some .asc, page := none, pageSize := some 100 } d.data
      = jsSort (fun a b => decide (sortCmp s 1 a b ≤ 0))
          (applySearch q.search (applyFieldFilters q.filters (applyIdsFilter q.ids d.data))) := by
    show applySort q.sortBy (some .asc) _ = _
    rw [hsort]
    simp only [applySort]
    rw [if_neg hs]
    rfl
  have hpipD : filterSortPipeline
      { q with sortOrder := some .desc, page := none, pageSize := some 100 } d.data
      = jsSort (fun a b => decide (sortCmp s (-1) a b ≤ 0))
          (applySearch q.search (applyFieldFilters q.filters (applyIdsFilter q.ids d.data))) := by
    show applySort q.sortBy (some .desc) _ = _
    rw [hsort]
    simp only [applySort]
    rw [if_neg hs]
    rfl
  have hlenA : (jsSort (fun a b => decide (sortCmp s 1 a b ≤ 0))
      (applySearch q.search (applyFieldFilters q.filters (applyIdsFilter q.ids d.data)))).length
      ≤ 100 := by
    rw [(jsSort_perm _ _).length_eq]
    exact hlen
  have hlenD : (jsSort (fun a b => decide (sortCmp s (-1) a b ≤ 0))
      (applySearch q.search (applyFieldFilters q.filters (applyIdsFilter q.ids d.data)))).length
      ≤ 100 := by
    rw [(jsSort_perm _ _).length_eq]
    exact hlen
  have hallA := paginate_all
    { q with sortOrder := some .asc, page := none, pageSize := some 100 }
    (jsSort (fun a b => decide (sortCmp s 1 a b ≤ 0))
      (applySearch q.search (applyFieldFilters q.filters (applyIdsFilter q.ids d.data))))
    rfl rfl hlenA
  have hallD := paginate_all
    { q with sortOrder := some .desc, page := none, pageSize := some 100 }
    (jsSort (fun a b => decide (sortCmp s (-1) a b ≤ 0))
      (applySearch q.search (applyFieldFilters q.filters (applyIdsFilter q.ids d.data))))
    rfl rfl hlenD
  rw [hpipA, hpipD]
  show (paginate _ _).items = ((paginate _ _).items.filter _).reverse
      ++ (paginate _ _).items.filter _
  rw [hallA.1, hallD.1]
  exact jsSort_asc_reverse_desc s
    (applySearch q.search (applyFieldFilters q.filters (applyIdsFilter q.ids d.data))) h1' h2'

/-! ## Map helper lemmas -/

theorem getDs_delDs_ne (st : MState) (id k : String) (h : k ≠ id) :
    getDs (delDs st id) k = getDs st k := by
  induction st with
  | nil => rfl
  | cons p rest ih =>
    simp only [delDs, List.filter_cons] at ih ⊢
    by_cases hp : p.1 = id
    · have hb : (p.1 != id) = false := by simp [hp]
      rw [hb, if_neg Bool.false_ne_true, ih]
      simp only [getDs, List.lookup]
      have hk : (k == p.1) = false := by
        rw [hp]
        exact beq_false_of_ne h
      rw [hk]
    · have hb : (p.1 != id) = true := by simp [hp]
      rw [hb, if_pos rfl]
      simp only [getDs, List.lookup]
      cases hk : k == p.1 with
      | true => rfl
      | false => exact ih

theorem getDs_delDs_self (st : MState) (id : String) :
    getDs (delDs st id) id = none := by
  induction st with
  | nil => rfl
  | cons p rest ih =>
    simp only [delDs, List.filter_cons] at ih ⊢
    by_cases hp : p.1 = id
    · have hb : (p.1 != id) = false := by simp [hp]
      rw [hb, if_neg Bool.false_ne_true]
      exact ih
    · have hb : (p.1 != id) = true := by simp [hp]
      rw [hb, if_pos rfl]
      simp only [getDs, List.lookup]
      have hk : (id == p.1) = false := beq_false_of_ne (fun hh => hp hh.symm)
      rw [hk]
      exact ih

theorem find?_after_misses {α : Type} (p : α → Bool) (l1 l2 : List α) (r : α)
    (h1 : ∀ x ∈ l1, p x = false) (hr : p r = true) :
    (l1 ++ r :: l2).find? p = some r := by
  induction l1 with
  | nil => simp [List.find?, hr]
  | cons x xs ih =>
    have hx := h1 x (by simp)
    simp only [List.cons_append, List.find?, hx]
    exact ih (fun y hy => h1 y (by simp [hy]))

/-! ## Expiry semantics (C1) -/

/-- Claim C1 (amended): a snapshot past `expiresAt` is unreachable
through `query` (expired error plus lazy eviction) and is excluded from
`listDatasets` (which sweeps first), but `getById` and `getMetadata`
perform no expiry check: until a sweep runs they still return the item
and the metadata. -/
theorem expired_unswept_semantics
    (st : MState) (now : Int) (dsId : String) (d : StoredDataset)
    (hd : getDs st dsId = some d) (hexp : now > d.metadata.expiresAt)
    (_hsafe : ∀ v ∈ d.data, isNullish v = false) :
    (∀ q : DatasetQuery, q.datasetId = dsId →
        queryOp now q st = (.error ("Dataset expired: " ++ dsId), delDs st dsId))
    ∧ d.metadata ∉ (listDatasets now st).1
    ∧ getMetadata st dsId = some d.metadata
    ∧ (∀ itemId : Int, ∀ r, d.data.find? (idScanMatches itemId) = some r → truthy r = true →
        getById st dsId itemId = .ok (some r)) := by
  refine ⟨?_, ?_, ?_, ?_⟩
  · intro q hq
    have hd' : getDs st q.datasetId = some d := by rw [hq]; exact hd
    rw [queryOp_expired st now q d hd' hexp, hq]
  · intro hmem
    simp only [listDatasets] at hmem
    obtain ⟨p, hp, hpm⟩ := List.mem_map.mp hmem
    have hkept := List.mem_filter.mp hp
    have : ¬ now > p.2.metadata.expiresAt := by simpa using hkept.2
    rw [hpm] at this
    exact this hexp
  · simp [getMetadata, hd]
  · intro itemId r hfind htruthy
    simp only [getById, hd, hfind, htruthy, if_pos]

/-- Counterexample for claim C1 as stated: at `now = 1000` the snapshot
in `expiredSt` is past its expiry (10), yet `getById` still returns the
item and `getMetadata` still returns the metadata — the expired snapshot
is not treated as absent by every access path. -/
theorem expired_unswept_counterexample :
    (1000 : Int) > expiredDs.metadata.expiresAt
    ∧ getById expiredSt "d" 5 = .ok (some (.vObj [("id", .vNum 5)]))
    ∧ getMetadata expiredSt "d" = some (exMeta 10) :=
  ⟨by decide, rfl, rfl⟩

theorem expired_unswept_semantics_witness :
    queryOp 1000 (baseQuery "d") expiredSt
      = (.error ("Dataset expired: " ++ "d"), delDs expiredSt "d") :=
  (expired_unswept_semantics expiredSt 1000 "d" expiredDs rfl (by decide) (by decide)).1
    (baseQuery "d") rfl

/-! ## The identity-list filter (C2) -/

/-- Claim C2 (amended): a non-empty explicit identity list keeps exactly
the items whose identity — resolved through the fixed chain `'id'`,
then `'messageId'`, then 0, not through the store-time `idField` — is a
member of the list; an empty list is treated as no filter at all (every
item is kept). -/
theorem query_ids_filter
    (st : MState) (now : Int) (dsId : String) (d : StoredDataset) (L : List Int)
    (hd : getDs st dsId = some d) (hexp : ¬ now > d.metadata.expiresAt)
    (hL : L ≠ [])
    (_hsafe : ∀ v ∈ d.data, isNullish v = false)
    (hlen : (d.data.filter (fun v => idInSet L (resolveIdDefault v))).length ≤ 100)
    (hlen2 : d.data.length ≤ 100) :
    (∃ r, (queryOp now { baseQuery dsId with ids := some L, pageSize := some 100 } st).1 = .ok r
       ∧ r.items = d.data.filter (fun v => idInSet L (resolveIdDefault v))
       ∧ r.totalCount = (d.data.filter (fun v => idInSet L (resolveIdDefault v))).length)
    ∧ (∃ r, (queryOp now
          { baseQuery dsId with ids := some ([] : List Int), pageSize := some 100 } st).1 = .ok r
       ∧ r.items = d.data) := by
  constructor
  · rw [queryOp_ok st now { baseQuery dsId with ids := some L, pageSize := some 100 } d hd hexp]
    have hpip : filterSortPipeline
        { baseQuery dsId with ids := some L, pageSize := some 100 } d.data
        = applyIdsFilter (some L) d.data := rfl
    have hfil : applyIdsFilter (some L) d.data
        = d.data.filter (fun v => idInSet L (resolveIdDefault v)) := by
      simp only [applyIdsFilter]
      rw [if_pos (List.length_pos.mpr hL)]
    have hall := paginate_all { baseQuery dsId with ids := some L, pageSize := some 100 }
      (d.data.filter (fun v => idInSet L (resolveIdDefault v))) rfl rfl hlen
    refine ⟨_, rfl, ?_, ?_⟩
    · rw [hpip, hfil]
      exact hall.1
    · rw [hpip, hfil]
      exact hall.2
  · rw [queryOp_ok st now
        { baseQuery dsId with ids := some ([] : List Int), pageSize := some 100 } d hd hexp]
    have hpip : filterSortPipeline
        { baseQuery dsId with ids := some ([] : List Int), pageSize := some 100 } d.data
        = d.data := rfl
    have hall := paginate_all
      { baseQuery dsId with ids := some ([] : List Int), pageSize := some 100 }
      d.data rfl rfl hlen2
    refine ⟨_, rfl, ?_⟩
    rw [hpip]
    exact hall.1

/-- Counterexample for claim C2 as stated: the claim requires an empty
identity list to keep only items whose identity is a member of the empty
set — i.e. nothing — but the code skips the filter entirely and returns
the item. -/
theorem query_ids_empty_counterexample :
    pageItems (queryOp 0 { baseQuery "d" with ids := some ([] : List Int) } liveSt).1
      = [.vObj [("id", .vNum 5)]]
    ∧ liveDs.data.filter (fun v => idInSet [] (resolveIdDefault v)) = []
    ∧ pageItems (queryOp 0 { baseQuery "d" with ids := some ([] : List Int) } liveSt).1
      ≠ liveDs.data.filter (fun v => idInSet [] (resolveIdDefault v)) := by
  refine ⟨rfl, rfl, ?_⟩
  intro h
  have h1 : pageItems (queryOp 0 { baseQuery "d" with ids := some ([] : List Int) } liveSt).1
      = [.vObj [("id", .vNum 5)]] := rfl
  have h2 : liveDs.data.filter (fun v => idInSet [] (resolveIdDefault v)) = [] := rfl
  rw [h1, h2] at h
  exact List.cons_ne_nil _ _ h

theorem query_ids_filter_witness :
    ∃ r, (queryOp 0 { baseQuery "d" with ids := some [5], pageSize := some 100 } liveSt).1 = .ok r
       ∧ r.items = liveDs.data.filter (fun v => idInSet [5] (resolveIdDefault v))
       ∧ r.totalCount = (liveDs.data.filter (fun v => idInSet [5] (resolveIdDefault v))).length :=
  (query_ids_filter liveSt 0 "d" liveDs [5] rfl (by decide) (by decide)
    (by decide) (by decide) (by decide)).1

/-! ## Frame property of query (C8) -/

/-- Claim C8: a `query` call leaves the store untouched except in the
expired case, where exactly the queried dataset is removed (lazy
eviction): no other key changes, and every surviving snapshot is
byte-for-byte the snapshot that was already stored. -/
theorem query_frame (now : Int) (q : DatasetQuery) (st : MState) :
    ((queryOp now q st).2 = st ∨
      ((queryOp now q st).2 = delDs st q.datasetId
        ∧ ∃ d, getDs st q.datasetId = some d ∧ now > d.metadata.expiresAt
        ∧ (queryOp now q st).1 = .error ("Dataset expired: " ++ q.datasetId)))
    ∧ (∀ k, k ≠ q.datasetId → getDs (queryOp now q st).2 k = getDs st k)
    ∧ (∀ k ds', getDs (queryOp now q st).2 k = some ds' → getDs st k = some ds') := by
  cases hd : getDs st q.datasetId with
  | none =>
    rw [queryOp_not_found st now q hd]
    exact ⟨.inl rfl, fun k _ => rfl, fun k ds' h => h⟩
  | some d =>
    by_cases hexp : now > d.metadata.expiresAt
    · rw [queryOp_expired st now q d hd hexp]
      refine ⟨.inr ⟨rfl, d, rfl, hexp, rfl⟩, ?_, ?_⟩
      · intro k hk
        exact getDs_delDs_ne st q.datasetId k hk
      · intro k ds' h
        by_cases hk : k = q.datasetId
        · rw [hk, getDs_delDs_self] at h
          exact Option.noConfusion h
        · rw [getDs_delDs_ne st q.datasetId k hk] at h
          exact h
    · rw [queryOp_ok st now q d hd hexp]
      exact ⟨.inl rfl, fun k _ => rfl, fun k ds' h => h⟩

theorem query_frame_witness :
    getDs (queryOp 1000 (baseQuery "d") expiredSt).2 "other" = getDs expiredSt "other" :=
  (query_frame 1000 (baseQuery "d") expiredSt).2.1 "other" (by decide)

/-! ## Point lookup (C9) -/

/-- Claim C9 (amended): `getById` resolves identity through the fixed
chain `'id'`, then `'messageId'`, then 0 — it does not consult the
store-time `idField` — and returns the first item in stored order whose
chain identity strictly equals `itemId` (the full record), or null when
no item matches; the dataset being unknown is the only thrown error. -/
theorem getById_first_match
    (st : MState) (dsId : String) (itemId : Int) (d : StoredDataset)
    (hd : getDs st dsId = some d)
    (_hsafe : ∀ v ∈ d.data, isNullish v = false) :
    ((∀ r ∈ d.data, idScanMatches itemId r = false) → getById st dsId itemId = .ok none)
    ∧ (∀ l1 r l2, d.data = l1 ++ r :: l2 →
        (∀ x ∈ l1, idScanMatches itemId x = false) →
        idScanMatches itemId r = true → truthy r = true →
        getById st dsId itemId = .ok (some r)) := by
  constructor
  · intro hall
    have hnone : d.data.find? (idScanMatches itemId) = none :=
      List.find?_eq_none.mpr (fun x hx => by simp [hall x hx])
    simp only [getById, hd, hnone]
  · intro l1 r l2 hsplit hpre hr htr
    have hfind : d.data.find? (idScanMatches itemId) = some r := by
      rw [hsplit]
      exact find?_after_misses _ l1 l2 r hpre hr
    simp only [getById, hd, hfind, htr, if_pos]

/-- Counterexample for claim C9 as stated: store an item whose
configured identity field (`idField = "foo"`) resolves to 5; `getById`
for 5 nevertheless returns null, because it resolves identity through
the fixed `'id'`/`'messageId'`/0 chain, not the configured field. -/
theorem getById_ignores_idField_counterexample :
    (storeOp 0 "d" .generic [.vObj [("foo", .vNum 5)]]
        { noOptions with idField := some "foo" } []).map
      (fun r => getById r.2 "d" 5) = .ok (.ok none)
    ∧ resolveIdWith "foo" (.vObj [("foo", .vNum 5)]) = .vNum 5 :=
  ⟨rfl, rfl⟩

theorem getById_first_match_witness :
    getById liveSt "d" 5 = .ok (some exRec) :=
  (getById_first_match liveSt "d" 5 liveDs rfl (by decide)).2
    [] exRec [] rfl (by simp) rfl rfl

/-! ## Falsy TTL override (C10) -/

/-- Claim C10: a `store` call with `ttlMs = 0` (or no override at all)
produces a snapshot expiring the default 30 minutes after `createdAt`:
`0 || DEFAULT_TTL_MS` picks the default, so a zero TTL cannot be
requested through the public interface. -/
theorem store_falsy_ttl_uses_default
    (now : Int) (newId : String) (ty : DatasetType) (data : List JsVal)
    (options : StoreOptions) (st : MState)
    (h : options.ttlMs = some 0 ∨ options.ttlMs = none)
    (md : DatasetMetadata) (st' : MState)
    (hok : storeOp now newId ty data options st = .ok (md, st')) :
    md.createdAt = now ∧ md.expiresAt = now + DEFAULT_TTL_MS := by
  have httl : storeTtl options = DEFAULT_TTL_MS := by
    rcases h with h | h <;> simp [storeTtl, h]
  unfold storeOp at hok
  dsimp only at hok
  split at hok
  · exact Except.noConfusion hok
  · rw [Except.ok.injEq, Prod.mk.injEq] at hok
    obtain ⟨hmd, hst⟩ := hok
    rw [← hmd]
    exact ⟨rfl, by rw [show (storeMetadata now newId ty options (flattenApiResponse data)
      _).expiresAt = now + storeTtl options from rfl, httl]⟩

theorem store_falsy_ttl_witness :
    ∃ md : DatasetMetadata, ∃ st' : MState,
      storeOp 5 "d" .generic [exRec] { noOptions with ttlMs := some 0 } [] = .ok (md, st')
      ∧ md.createdAt = 5 ∧ md.expiresAt = 5 + DEFAULT_TTL_MS := by
  refine ⟨_, _, rfl, ?_⟩
  exact store_falsy_ttl_uses_default 5 "d" .generic [exRec]
    { noOptions with ttlMs := some 0 } [] (.inl rfl) _ _ rfl

/-! ## Ingestion normalization (C6, C7) -/

/-- Claim C6: the wrapped raw input `[{list:{event:[{id:5},{id:7}]}}]`
normalizes to the two flat records with ids 5 and 7 (store then holds
them in identity-descending order), not to a single item carrying a
`list` field. -/
theorem flatten_wrapped_input :
    flattenApiResponse [.vObj [("list", .vObj [("event",
        .vArr [.vObj [("id", .vNum 5)], .vObj [("id", .vNum 7)]])])]]
      = [.vObj [("id", .vNum 5)], .vObj [("id", .vNum 7)]]
    ∧ (storeOp 0 "d" .events [.vObj [("list", .vObj [("event",
          .vArr [.vObj [("id", .vNum 5)], .vObj [("id", .vNum 7)]])])]] noOptions []).map
        (fun r => (getDs r.2 "d").map (fun ds => ds.data))
      = .ok (some [.vObj [("id", .vNum 7)], .vObj [("id", .vNum 5)]]) :=
  ⟨rfl, rfl⟩

/-- Claim C7, failing input: the normalizer itself falls back to the
original input on an ambiguous wrapper (first conjunct), but `store` is
not total — a `serverLogs` item whose `logMessage` holds a number makes
the preview truncation call `.substring` on a non-string and throw, so
ingestion can fail despite the never-throw contract. -/
theorem store_not_total :
    flattenApiResponse [.vObj [("list", .vObj [("x", .vNum 3)])]]
      = [.vObj [("list", .vObj [("x", .vNum 3)])]]
    ∧ storeOp 0 "ds1" .serverLogs [.vObj [("id", .vNum 1), ("logMessage", .vNum 42)]]
        noOptions [] = .error "TypeError: substring is not a function" :=
  ⟨rfl, rfl⟩

/-! ## Remaining counterexamples and witnesses -/

/-- Counterexample for claim C5 as stated: recA and recB tie on sort
field `k` (both 1); the stable sort keeps them in input order in both
directions, so the ascending order is not the reverse of the descending
order even though every item has the field. -/
theorem query_sort_reverse_counterexample :
    pageItems (queryOp 0 { qSortK with sortOrder := some .asc } tieSt).1 = [recC, recA, recB]
    ∧ pageItems (queryOp 0 { qSortK with sortOrder := some .desc } tieSt).1 = [recA, recB, recC]
    ∧ (∀ v ∈ tieDs.data, hasSortKey "k" v = true)
    ∧ pageItems (queryOp 0 { qSortK with sortOrder := some .asc } tieSt).1
      ≠ ((pageItems (queryOp 0 { qSortK with sortOrder := some .desc } tieSt).1).filter
            (hasSortKey "k")).reverse
        ++ (pageItems (queryOp 0 { qSortK with sortOrder := some .desc } tieSt).1).filter
            (fun v => !hasSortKey "k" v) := by
  refine ⟨rfl, rfl, by decide, ?_⟩
  intro h
  have h2 := congrArg (List.map (fun v => jsToString (jsGet v "tag"))) h
  exact absurd h2 (by decide)

theorem query_sort_asc_reverse_desc_witness :
    pageItems (queryOp 0
        { qSortK with sortOrder := some .asc, page := none, pageSize := some 100 }
        distinctSt).1
      = ((pageItems (queryOp 0
            { qSortK with sortOrder := some .desc, page := none, pageSize := some 100 }
            distinctSt).1).filter (hasSortKey "k")).reverse
        ++ (pageItems (queryOp 0
            { qSortK with sortOrder := some .desc, page := none, pageSize := some 100 }
            distinctSt).1).filter (fun v => !hasSortKey "k" v) :=
  query_sort_asc_reverse_desc distinctSt 0 qSortK distinctDs "k" rfl (by decide) rfl
    (by decide) (by decide)
    (by
      intro v hv
      rcases List.mem_cons.mp hv with rfl | hv
      · exact .inr ⟨2, rfl⟩
      · rcases List.mem_cons.mp hv with rfl | hv
        · exact .inr ⟨0, rfl⟩
        · rcases List.mem_cons.mp hv with rfl | hv
          · exact .inl rfl
          · cases hv)
    (by decide) (by decide)

theorem query_pages_partition_witness :
    ((List.range (((filterSortPipeline (baseQuery "d") liveDs.data).length + 1 - 1) / 1)).map
        (fun i => pageItems (queryOp 0
          { baseQuery "d" with page := some ((i + 1 : Nat) : Int),
                               pageSize := some ((1 : Nat) : Int) } liveSt).1)).flatten
      = filterSortPipeline (baseQuery "d") liveDs.data :=
  query_pages_partition liveSt 0 (baseQuery "d") liveDs 1 rfl (by decide) (by decide)
    (by decide) (by decide)

theorem query_page_overflow_witness :
    ∃ r, (queryOp 0 { baseQuery "d" with page := some 99, pageSize := some 1 } liveSt).1 = .ok r
      ∧ r.page = ceilPages (filterSortPipeline
          { baseQuery "d" with page := some 99, pageSize := some 1 } liveDs.data).length
          (effPageSize { baseQuery "d" with page := some 99, pageSize := some 1 })
      ∧ r.items ≠ [] :=
  (query_page_overflow liveSt 0 { baseQuery "d" with page := some 99, pageSize := some 1 }
    liveDs 99 rfl (by decide) (by decide) (by decide) rfl (by decide) (by decide)).2
